import Mathlib

/-!
Verification development for the slpz command-line front-end (`src/slpz.rs`).

The front-end `main` is embedded as a pure function `runMain` over an abstract
file-system state; its external collaborators that live in the library crate
(the zstd-backed codec, `Options::DEFAULT`, `target_path`) are modelled from
the design document, as marked on each such definition.
-/

set_option maxHeartbeats 1000000

abbrev Bytes := List Nat

abbrev Chars := List Char

/-- Splits a character list at every occurrence of `sep`; mirrors the
component/extension splitting done by Rust's `std::path` on the path string. -/
def splitOnChar (sep : Char) : Chars → List Chars
  | [] => [[]]
  | c :: cs =>
    match splitOnChar sep cs with
    | [] => if c = sep then [[], [c]] else [[c]]
    | h :: t => if c = sep then [] :: h :: t else (c :: h) :: t

/-- Path components as Rust's `Path::components` sees them: empty pieces and
lone-dot pieces are normalized away. -/
def realComps (p : String) : List Chars :=
  (splitOnChar '/' p.data).filter (fun c => !(c.isEmpty || c == ['.']))

/-- Rust `Path::file_name`: the last normalized component, or `none` when the
path is empty, a bare root, or terminates in `..`. -/
def fileName (p : String) : Option Chars :=
  match (realComps p).getLast? with
  | none => none
  | some f => if f = ['.', '.'] then none else some f

/-- The extension part of one file-name component, following Rust's
`split_file_at_dot`: the text after the last dot, except that a name with no
dot, or whose only dot is the leading character, has no extension. -/
def extOfName (f : Chars) : Option Chars :=
  match splitOnChar '.' f with
  | [] => none
  | [_] => none
  | [[], _] => none
  | ps => ps.getLast?

/-- Rust `Path::file_stem` on one file-name component: the text before the
extension, or the whole name when there is no extension. -/
def stemOfName (f : Chars) : Chars :=
  match extOfName f with
  | none => f
  | some e => f.take (f.length - (e.length + 1))

/-- Rust `Path::extension` of the whole path string. -/
def extension (p : String) : Option String :=
  (fileName p).bind (fun f => (extOfName f).map String.mk)

/-- The directory portion kept in front of the rebuilt file name by
`PathBuf::set_extension` (components re-joined, a leading slash preserved). -/
def parentPartChars (p : String) : Chars :=
  let pre :=
    match (realComps p).dropLast with
    | [] => []
    | cs => (cs.map (fun c => c ++ ['/'])).flatten
  if p.data.head? = some '/' then '/' :: pre else pre

/-- Rust `PathBuf::set_extension ext` (for a non-empty `ext`): fails exactly
when the path has no file name; otherwise replaces any existing extension of
the final component by `ext`, appending `.ext` when there is none. -/
def setExtension (p ext : String) : Option String :=
  match fileName p with
  | none => none
  | some f => some (String.mk (parentPartChars p ++ stemOfName f ++ '.' :: ext.data))

/-- Suffix test on plain strings (used only to state extension-related
properties the way the design document phrases them). -/
def endsWithStr (s suf : String) : Bool :=
  suf.data.reverse.isPrefixOf s.data.reverse

/-! ## Abstract file system -/

/-- Association-list lookup keyed by path. -/
def lookupA : List (String × Bytes) → String → Option Bytes
  | [], _ => none
  | e :: rest, p => if e.1 = p then some e.2 else lookupA rest p

/-- Removes every binding of key `p`. -/
def eraseKey : List (String × Bytes) → String → List (String × Bytes)
  | [], _ => []
  | e :: rest, p => if e.1 = p then eraseKey rest p else e :: eraseKey rest p

/-- Abstract file-system state: regular files with contents, plus the set of
directory paths. Reads fail exactly when the file is absent; writes and the
standard streams always succeed, which is the success case the design's
frame conditions quantify over. -/
structure FS where
  files : List (String × Bytes)
  dirs : List String
deriving DecidableEq

def FS.read (fs : FS) (p : String) : Option Bytes := lookupA fs.files p

def FS.isDir (fs : FS) (p : String) : Bool := fs.dirs.contains p

def FS.write (fs : FS) (p : String) (d : Bytes) : FS :=
  ⟨(p, d) :: eraseKey fs.files p, fs.dirs⟩

def FS.removeFile (fs : FS) (p : String) : FS :=
  ⟨eraseKey fs.files p, fs.dirs⟩

/-! ## Codec (external collaborator, modelled) -/

/-- Modelled from the spec: the codec engine lives in the library crate, which
is not among the sources; §6 fixes its interface (`newCompressor` may fail on
an unsupported level, zstd levels run up to 22) and §4.4 its round-trip
contract. The byte-level transform itself is out of scope, so a concrete
invertible transform (run-length coding) stands in for it. -/
structure Compressor where
  level : Nat
deriving DecidableEq

structure Decompressor
deriving DecidableEq

/-- Modelled from the spec: constructor of the compression handle, failing on
an out-of-range level. -/
def Compressor.new (level : Nat) : Option Compressor :=
  if level ≤ 22 then some ⟨level⟩ else none

/-- Modelled from the spec: constructor of the decompression handle. -/
def Decompressor.new : Option Decompressor := some ⟨⟩

/-- Run-length encoding worker: `b` is the byte of the current run, `n` its
count so far (kept between 1 and 255). -/
def rleGo (b n : Nat) : List Nat → List Nat
  | [] => [n, b]
  | c :: cs => if c = b ∧ n < 255 then rleGo b (n + 1) cs else n :: b :: rleGo c 1 cs

def rleEncode : List Nat → List Nat
  | [] => []
  | b :: rest => rleGo b 1 rest

def rleDecode : List Nat → List Nat
  | n :: b :: rest => List.replicate n b ++ rleDecode rest
  | _ => []

/-- Modelled from the spec: one-shot whole-buffer compression (§4.4). -/
def compress (_c : Compressor) (data : Bytes) : Except String Bytes :=
  Except.ok (rleEncode data)

/-- Modelled from the spec: one-shot whole-buffer decompression (§4.4). -/
def decompress (_d : Decompressor) (data : Bytes) : Except String Bytes :=
  Except.ok (rleDecode data)

/-! ## Configuration (front-end, `src/slpz.rs` lines 17-82) -/

/-- The library's `Options` struct, as the front-end uses it. -/
structure Options where
  level : Nat
  compress : Option Bool
  keep : Bool
  log : Bool
  recursive : Bool
deriving DecidableEq

/-- Modelled from the spec: `Options::DEFAULT` is defined in the library
crate, which is not among the sources; §3 fixes Infer direction, Keep
retention, logging on, and a mid-range default level. -/
def Options.DEFAULT : Options :=
  { level := 9, compress := none, keep := true, log := true, recursive := false }

/-- The clap argument record of `src/slpz.rs` lines 17-56. -/
structure Args where
  input : String
  output : Option String := none
  compress : Bool := false
  decompress : Bool := false
  fast : Bool := false
  small : Bool := false
  recursive : Bool := false
  keep : Bool := false
  remove : Bool := false
  quiet : Bool := false
deriving DecidableEq

/-- Lines 62-82 of `main`: fold the parsed flags over `Options::DEFAULT`. -/
def buildOptions (args : Args) : Options :=
  { level := if args.fast then 3 else if args.small then 12 else Options.DEFAULT.level,
    compress :=
      if args.compress then some true
      else if args.decompress then some false
      else Options.DEFAULT.compress,
    keep := if args.remove then false else if args.keep then true else Options.DEFAULT.keep,
    log := !args.quiet,
    recursive := args.recursive }

/-! ## Run model -/

inductive TargetPathError
  | PathNotFound
  | PathInvalid
  | CompressOrDecompressAmbiguous
  | ZstdInitError
deriving DecidableEq

inductive ErrMsg
  | recursiveStream
  | outputWithDirectory
  | targetPathErr (e : TargetPathError)
  | fileReadErr (path : String)
  | stdinDirectionRequired
  | ambiguousDirection (path : String)
  | compressorInitFailed
  | compressFailed
  | decompressorInitFailed
  | decompressFailed
  | outputFilenameErr (path : String)
  | removeErr (path : String)
deriving DecidableEq

inductive LogMsg
  | processed (compressed : Bool) (source dest : String)
  | processedAuto (compressed : Bool) (source : String)
  | removed (path : String)
deriving DecidableEq

/-- One externally visible step of the run, in program order. -/
inductive Event
  | readStdin
  | readFile (path : String)
  | dirMode (root : String)
  | writeStdout (data : Bytes)
  | writeFile (path : String) (data : Bytes)
  | removeFile (path : String)
  | errMsg (m : ErrMsg)
  | logMsg (m : LogMsg)
deriving DecidableEq

inductive Dest
  | stdout
  | file (path : String)
deriving DecidableEq

/-- Outcome of one invocation: process exit code, the ordered trace of
externally visible events, the final file-system state, and — as observation
points for the two per-item decisions — the resolved direction and the
resolved destination (left `none` when the run ends before deciding them). -/
structure RunResult where
  exitCode : Nat
  events : List Event
  fs : FS
  direction : Option Bool
  dest : Option Dest
deriving DecidableEq

inductive DirError
  | stdinDirectionRequired
  | ambiguousDirection
deriving DecidableEq

/-- Lines 126-144 of `main`: an explicit flag wins; a stream source demands a
flag; otherwise the source's extension decides, any other name being
ambiguous. -/
def resolveDirection (options : Options) (input : String) : Except DirError Bool :=
  match options.compress with
  | some c => Except.ok c
  | none =>
    if input = "-" then Except.error DirError.stdinDirectionRequired
    else if extension input = some "slp" then Except.ok true
    else if extension input = some "slpz" then Except.ok false
    else Except.error DirError.ambiguousDirection

/-- Lines 147-177 of `main`: construct the codec handle for the resolved
direction and run the one-shot transform. -/
def processData (options : Options) (willCompress : Bool) (data : Bytes) : Except ErrMsg Bytes :=
  if willCompress then
    match Compressor.new options.level with
    | none => Except.error ErrMsg.compressorInitFailed
    | some c =>
      match compress c data with
      | Except.ok o => Except.ok o
      | Except.error _ => Except.error ErrMsg.compressFailed
  else
    match Decompressor.new with
    | none => Except.error ErrMsg.decompressorInitFailed
    | some d =>
      match decompress d data with
      | Except.ok o => Except.ok o
      | Except.error _ => Except.error ErrMsg.decompressFailed

/-- Modelled from the spec: the library's `target_path` (the traversal engine,
§4.5) is not among the sources; only its structural-failure outcomes are
modelled — `PathNotFound` for an absent root, `PathInvalid` for a directory
root without the recursive flag (or a root that is neither file nor
directory), `ZstdInitError` when the codec handle for a forced direction
cannot be constructed — and a successful traversal is abstracted to a unit
result. -/
def target_path (options : Options) (fs : FS) (root : String) : Except TargetPathError Unit :=
  if fs.isDir root = false ∧ fs.read root = none then Except.error TargetPathError.PathNotFound
  else if fs.isDir root = true ∧ options.recursive = false then Except.error TargetPathError.PathInvalid
  else if (match options.compress with
           | some true => (Compressor.new options.level).isNone
           | some false => Decompressor.new.isNone
           | none => false) then Except.error TargetPathError.ZstdInitError
  else Except.ok ()

/-- Lines 108-123 of `main`: a stream source drains stdin, a path source is
read from the file system. -/
def readInput (fs : FS) (stdin : Bytes) (input : String) : Option Bytes :=
  if input = "-" then some stdin else fs.read input

def readEvent (input : String) : Event :=
  if input = "-" then Event.readStdin else Event.readFile input

/-- The target extension written by the derived-name branch (lines 211-215). -/
def extFor (willCompress : Bool) : String :=
  if willCompress then "slpz" else "slp"

/-- Lines 180-239 of `main`: route the transformed bytes to the explicit
output (verbatim, `-` meaning stdout), or to stdout for a stream source, or
to the derived file name; the derived branch then applies the retention
policy (source removal unless `keep`), logging each successful step unless
the destination is stdout. -/
def writeOutput (options : Options) (fs : FS) (args : Args) (willCompress : Bool) (out : Bytes) : RunResult :=
  match args.output with
  | some p =>
    if p = "-" then
      ⟨0, [Event.writeStdout out], fs, some willCompress, some Dest.stdout⟩
    else
      ⟨0, Event.writeFile p out ::
            (if options.log = true then [Event.logMsg (LogMsg.processed willCompress args.input p)] else []),
        fs.write p out, some willCompress, some (Dest.file p)⟩
  | none =>
    if args.input = "-" then
      ⟨0, [Event.writeStdout out], fs, some willCompress, some Dest.stdout⟩
    else
      match setExtension args.input (extFor willCompress) with
      | none => ⟨1, [Event.errMsg (ErrMsg.outputFilenameErr args.input)], fs, some willCompress, none⟩
      | some outPath =>
        if options.keep = true then
          ⟨0, Event.writeFile outPath out ::
                (if options.log = true then [Event.logMsg (LogMsg.processedAuto willCompress args.input)] else []),
            fs.write outPath out, some willCompress, some (Dest.file outPath)⟩
        else
          match (fs.write outPath out).read args.input with
          | some _ =>
            ⟨0, (Event.writeFile outPath out ::
                   (if options.log = true then [Event.logMsg (LogMsg.processedAuto willCompress args.input)] else []))
                ++ Event.removeFile args.input ::
                   (if options.log = true then [Event.logMsg (LogMsg.removed args.input)] else []),
              (fs.write outPath out).removeFile args.input, some willCompress, some (Dest.file outPath)⟩
          | none =>
            ⟨0, (Event.writeFile outPath out ::
                   (if options.log = true then [Event.logMsg (LogMsg.processedAuto willCompress args.input)] else []))
                ++ [Event.errMsg (ErrMsg.removeErr args.input)],
              fs.write outPath out, some willCompress, some (Dest.file outPath)⟩

/-- Lines 107-239 of `main`: the single-item pipeline — read, resolve the
direction, transform, write back. -/
def runSingle (options : Options) (fs : FS) (stdin : Bytes) (args : Args) : RunResult :=
  match readInput fs stdin args.input with
  | none =>
    ⟨1, [readEvent args.input, Event.errMsg (ErrMsg.fileReadErr args.input)], fs, none, none⟩
  | some data =>
    match resolveDirection options args.input with
    | Except.error DirError.stdinDirectionRequired =>
      ⟨1, [readEvent args.input, Event.errMsg ErrMsg.stdinDirectionRequired], fs, none, none⟩
    | Except.error DirError.ambiguousDirection =>
      ⟨1, [readEvent args.input, Event.errMsg (ErrMsg.ambiguousDirection args.input)], fs, none, none⟩
    | Except.ok willCompress =>
      match processData options willCompress data with
      | Except.error m => ⟨1, [readEvent args.input, Event.errMsg m], fs, some willCompress, none⟩
      | Except.ok out =>
        ⟨(writeOutput options fs args willCompress out).exitCode,
          readEvent args.input :: (writeOutput options fs args willCompress out).events,
          (writeOutput options fs args willCompress out).fs,
          (writeOutput options fs args willCompress out).direction,
          (writeOutput options fs args willCompress out).dest⟩

/-- Lines 58-240 of `main`: guard the stream/recursive clash, dispatch a
directory root to `target_path` (note the plain `return` there: exit code 0),
otherwise run the single-item pipeline. -/
def runMain (fs : FS) (stdin : Bytes) (args : Args) : RunResult :=
  if (args.input = "-" ∨ args.output = some "-") ∧ (buildOptions args).recursive = true then
    ⟨1, [Event.errMsg ErrMsg.recursiveStream], fs, none, none⟩
  else if args.input ≠ "-" ∧ fs.isDir args.input = true then
    if args.output.isSome then
      ⟨1, [Event.errMsg ErrMsg.outputWithDirectory], fs, none, none⟩
    else
      match target_path (buildOptions args) fs args.input with
      | Except.error e =>
        ⟨0, [Event.dirMode args.input, Event.errMsg (ErrMsg.targetPathErr e)], fs, none, none⟩
      | Except.ok _ => ⟨0, [Event.dirMode args.input], fs, none, none⟩
  else
    runSingle (buildOptions args) fs stdin args

/-! ## Helper lemmas -/

theorem lookupA_eraseKey_self (l : List (String × Bytes)) (p : String) :
    lookupA (eraseKey l p) p = none := by
  induction l with
  | nil => rfl
  | cons e rest ih =>
    by_cases h : e.1 = p
    · simpa [eraseKey, h] using ih
    · simpa [eraseKey, lookupA, h] using ih

theorem lookupA_eraseKey_ne (l : List (String × Bytes)) (p q : String) (h : q ≠ p) :
    lookupA (eraseKey l p) q = lookupA l q := by
  have hpq : p ≠ q := Ne.symm h
  induction l with
  | nil => rfl
  | cons e rest ih =>
    by_cases he : e.1 = p
    · simp [eraseKey, he, lookupA, hpq, ih]
    · by_cases heq : e.1 = q
      · simp [eraseKey, he, lookupA, heq, h]
      · simp [eraseKey, he, lookupA, heq, ih]

theorem FS.read_write (fs : FS) (p : String) (d : Bytes) (q : String) :
    (fs.write p d).read q = if q = p then some d else fs.read q := by
  by_cases h : q = p
  · subst h
    simp [FS.write, FS.read, lookupA]
  · rw [if_neg h]
    have hp : p ≠ q := Ne.symm h
    simp [FS.write, FS.read, lookupA, hp, lookupA_eraseKey_ne fs.files p q h]

theorem FS.read_removeFile (fs : FS) (p q : String) :
    (fs.removeFile p).read q = if q = p then none else fs.read q := by
  by_cases h : q = p
  · subst h
    simp [FS.removeFile, FS.read, lookupA_eraseKey_self]
  · rw [if_neg h]
    simp [FS.removeFile, FS.read, lookupA_eraseKey_ne fs.files p q h]

theorem rleDecode_rleGo (rest : List Nat) : ∀ b n, 1 ≤ n → n ≤ 255 →
    rleDecode (rleGo b n rest) = List.replicate n b ++ rest := by
  induction rest with
  | nil =>
    intro b n h1 h2
    simp [rleGo, rleDecode]
  | cons c cs ih =>
    intro b n h1 h2
    by_cases h : c = b ∧ n < 255
    · rw [rleGo, if_pos h, ih b (n + 1) (by omega) (by omega)]
      obtain ⟨hc, hn⟩ := h
      subst hc
      rw [List.replicate_succ']
      simp
    · rw [rleGo, if_neg h]
      have hdec : rleDecode (n :: b :: rleGo c 1 cs) =
          List.replicate n b ++ rleDecode (rleGo c 1 cs) := rfl
      rw [hdec, ih c 1 (by omega) (by omega)]
      simp

theorem rleDecode_rleEncode (x : List Nat) : rleDecode (rleEncode x) = x := by
  cases x with
  | nil => rfl
  | cons b rest => simpa using rleDecode_rleGo rest b 1 (by omega) (by omega)

theorem buildOptions_level_le (args : Args) : (buildOptions args).level ≤ 22 := by
  simp only [buildOptions, Options.DEFAULT]
  split_ifs <;> omega

theorem processData_ok (options : Options) (h : options.level ≤ 22) (b : Bool) (data : Bytes) :
    processData options b data = Except.ok (if b then rleEncode data else rleDecode data) := by
  cases b <;>
    simp [processData, Compressor.new, Decompressor.new, h, compress, decompress]

/-! ## Claim theorems -/

/-- C4: for every configuration in which the recursive flag is set and either
the input or the output is the stream marker "-", the invocation fails
validation: the run exits with code 1, the only event is the validation error
message (so no file is read, written, or traversed), and the file system is
unchanged. -/
theorem C4_recursive_stream_rejected (fs : FS) (stdin : Bytes) (args : Args)
    (h1 : args.input = "-" ∨ args.output = some "-") (h2 : args.recursive = true) :
    runMain fs stdin args = ⟨1, [Event.errMsg ErrMsg.recursiveStream], fs, none, none⟩ := by
  unfold runMain
  rw [if_pos ⟨h1, h2⟩]

/-- Witness for C4 at a concrete stream input with the recursive flag. -/
theorem C4_witness :
    runMain ⟨[("a.slp", [1])], []⟩ [] { input := "-", recursive := true } =
      ⟨1, [Event.errMsg ErrMsg.recursiveStream], ⟨[("a.slp", [1])], []⟩, none, none⟩ :=
  C4_recursive_stream_rejected _ _ _ (Or.inl rfl) rfl

/-- C9: a directory input combined with any explicit output target is
rejected: the run exits with code 1, the file system is untouched, and the
trace is a single error message (the stream/recursive validation error or the
output-with-directory error), so no traversal or file processing begins. -/
theorem C9_directory_with_output_rejected (fs : FS) (stdin : Bytes) (args : Args)
    (h1 : args.input ≠ "-") (h2 : fs.isDir args.input = true) (h3 : args.output.isSome = true) :
    (runMain fs stdin args).exitCode = 1 ∧ (runMain fs stdin args).fs = fs ∧
      ((runMain fs stdin args).events = [Event.errMsg ErrMsg.recursiveStream] ∨
       (runMain fs stdin args).events = [Event.errMsg ErrMsg.outputWithDirectory]) := by
  unfold runMain
  by_cases hg : (args.input = "-" ∨ args.output = some "-") ∧ (buildOptions args).recursive = true
  · rw [if_pos hg]
    exact ⟨rfl, rfl, Or.inl rfl⟩
  · rw [if_neg hg, if_pos ⟨h1, h2⟩, if_pos h3]
    exact ⟨rfl, rfl, Or.inr rfl⟩

/-- Witness for C9 at a concrete directory input with an explicit output. -/
theorem C9_witness :
    (runMain ⟨[], ["d"]⟩ [] { input := "d", output := some "o" }).exitCode = 1 ∧
    (runMain ⟨[], ["d"]⟩ [] { input := "d", output := some "o" }).fs = ⟨[], ["d"]⟩ ∧
    ((runMain ⟨[], ["d"]⟩ [] { input := "d", output := some "o" }).events =
        [Event.errMsg ErrMsg.recursiveStream] ∨
     (runMain ⟨[], ["d"]⟩ [] { input := "d", output := some "o" }).events =
        [Event.errMsg ErrMsg.outputWithDirectory]) :=
  C9_directory_with_output_rejected ⟨[], ["d"]⟩ [] { input := "d", output := some "o" }
    (by decide) (by decide) (by decide)

/-- C8: decompressing the result of compressing any byte buffer at any
supported compression level yields the original buffer bit-for-bit. -/
theorem C8_round_trip (x : Bytes) (level : Nat) (c : Compressor) (d : Decompressor) (y : Bytes)
    (hc : Compressor.new level = some c) (hd : Decompressor.new = some d)
    (hy : compress c x = Except.ok y) :
    decompress d y = Except.ok x := by
  have h3 : rleEncode x = y := by simpa [compress] using hy
  simp [decompress, ← h3, rleDecode_rleEncode]

/-- Witness for C8 at a concrete buffer and level. -/
theorem C8_witness :
    decompress Decompressor.mk (rleEncode [7, 7, 7, 0, 255]) = Except.ok [7, 7, 7, 0, 255] :=
  C8_round_trip [7, 7, 7, 0, 255] 4 ⟨4⟩ Decompressor.mk (rleEncode [7, 7, 7, 0, 255])
    (by decide) rfl rfl

/-- Counterexample for C1: the file named ".slp" ends in the raw extension
".slp" and is a plain (non-directory) input with no direction flag, yet the
run does not resolve to compress — it fails with the fatal
ambiguous-direction error, because Rust's Path extension of a bare dotfile
is None. -/
theorem C1_counterexample :
    endsWithStr ".slp" ".slp" = true ∧
    ({ input := ".slp" } : Args).compress = false ∧
    ({ input := ".slp" } : Args).decompress = false ∧
    runMain ⟨[(".slp", [0])], []⟩ [] { input := ".slp" } =
      ⟨1, [Event.readFile ".slp", Event.errMsg (ErrMsg.ambiguousDirection ".slp")],
        ⟨[(".slp", [0])], []⟩, none, none⟩ := by
  refine ⟨by decide, by decide, by decide, by decide⟩

/-- Counterexample for C2: a successful non-stream operation with an explicit
output path and the Remove retention policy, after which the source file
still exists — the retention step is skipped in the explicit-output branch. -/
theorem C2_counterexample :
    (buildOptions { input := "in.slp", output := some "out.slpz", remove := true }).keep = false ∧
    (runMain ⟨[("in.slp", [1, 2])], []⟩ []
        { input := "in.slp", output := some "out.slpz", remove := true }).exitCode = 0 ∧
    (runMain ⟨[("in.slp", [1, 2])], []⟩ []
        { input := "in.slp", output := some "out.slpz", remove := true }).fs.read "out.slpz" =
      some (rleEncode [1, 2]) ∧
    (runMain ⟨[("in.slp", [1, 2])], []⟩ []
        { input := "in.slp", output := some "out.slpz", remove := true }).fs.read "in.slp" =
      some [1, 2] := by
  refine ⟨by decide, by decide, by decide, by decide⟩

/-- Counterexample for C3: a structural failure reported from directory-mode
processing (a directory root without the recursive flag) prints an error
message but the process then returns normally, exiting with status 0, not a
non-zero status. -/
theorem C3_counterexample :
    runMain ⟨[], ["d"]⟩ [] { input := "d" } =
      ⟨0, [Event.dirMode "d", Event.errMsg (ErrMsg.targetPathErr TargetPathError.PathInvalid)],
        ⟨[], ["d"]⟩, none, none⟩ := by
  decide

/-- Counterexample for C5: the source "foo" has no extension to swap, yet the
derived-name branch does not fail with a cannot-derive-name error — it
appends the target suffix and succeeds, writing "foo.slpz". -/
theorem C5_counterexample :
    extension "foo" = none ∧
    runMain ⟨[("foo", [5])], []⟩ [] { input := "foo", compress := true } =
      ⟨0, [Event.readFile "foo", Event.writeFile "foo.slpz" [1, 5],
           Event.logMsg (LogMsg.processedAuto true "foo")],
        ⟨[("foo.slpz", [1, 5]), ("foo", [5])], []⟩, some true, some (Dest.file "foo.slpz")⟩ := by
  refine ⟨by decide, by decide⟩

theorem buildOptions_recursive (args : Args) : (buildOptions args).recursive = args.recursive := rfl

theorem buildOptions_compress_none (args : Args) (h1 : args.compress = false)
    (h2 : args.decompress = false) : (buildOptions args).compress = none := by
  simp [buildOptions, h1, h2, Options.DEFAULT]

theorem runMain_single (fs : FS) (stdin : Bytes) (args : Args)
    (hg : ¬ ((args.input = "-" ∨ args.output = some "-") ∧ (buildOptions args).recursive = true))
    (hd : ¬ (args.input ≠ "-" ∧ fs.isDir args.input = true)) :
    runMain fs stdin args = runSingle (buildOptions args) fs stdin args := by
  unfold runMain
  rw [if_neg hg, if_neg hd]

theorem runSingle_ok (options : Options) (fs : FS) (stdin : Bytes) (args : Args)
    (data : Bytes) (b : Bool) (out : Bytes)
    (hr : readInput fs stdin args.input = some data)
    (hb : resolveDirection options args.input = Except.ok b)
    (hp : processData options b data = Except.ok out) :
    runSingle options fs stdin args =
      ⟨(writeOutput options fs args b out).exitCode,
        readEvent args.input :: (writeOutput options fs args b out).events,
        (writeOutput options fs args b out).fs,
        (writeOutput options fs args b out).direction,
        (writeOutput options fs args b out).dest⟩ := by
  simp only [runSingle, hr, hb, hp]

/-- C2 (amended): the retention policy is applied only when the output path is
derived (no explicit output). For every successful non-stream single-file
operation with a derived destination: with the Remove policy the source no
longer exists afterwards; with the Keep policy, provided the derived
destination is a different path than the source, the source still exists with
its original bytes. (With an explicit output the retention step is skipped
entirely, as the counterexample shows.) -/
theorem C2_retention_derived_output (fs : FS) (stdin : Bytes) (args : Args) (d : Bytes)
    (b : Bool) (outPath : String)
    (hin : args.input ≠ "-") (hdir : fs.isDir args.input = false) (hout : args.output = none)
    (hread : fs.read args.input = some d)
    (hb : resolveDirection (buildOptions args) args.input = Except.ok b)
    (hset : setExtension args.input (extFor b) = some outPath) :
    ((buildOptions args).keep = false →
       (runMain fs stdin args).exitCode = 0 ∧ (runMain fs stdin args).fs.read args.input = none)
    ∧ ((buildOptions args).keep = true → outPath ≠ args.input →
       (runMain fs stdin args).exitCode = 0 ∧
         (runMain fs stdin args).fs.read args.input = some d) := by
  have hg : ¬ ((args.input = "-" ∨ args.output = some "-") ∧
      (buildOptions args).recursive = true) := by
    rintro ⟨hor, -⟩
    rcases hor with h | h
    · exact hin h
    · rw [hout] at h
      exact Option.noConfusion h
  have hd2 : ¬ (args.input ≠ "-" ∧ fs.isDir args.input = true) := by
    rintro ⟨-, hdt⟩
    rw [hdir] at hdt
    exact Bool.noConfusion hdt
  have hri : readInput fs stdin args.input = some d := by
    simp [readInput, hin, hread]
  have hpd := processData_ok (buildOptions args) (buildOptions_level_le args) b d
  rw [runMain_single fs stdin args hg hd2,
    runSingle_ok (buildOptions args) fs stdin args d b _ hri hb hpd]
  simp only [writeOutput, hout, hin, hset, if_neg hin]
  constructor
  · intro hkeep
    simp only [hkeep, Bool.false_eq_true, if_false]
    by_cases hpo : args.input = outPath
    · have hr2 : (fs.write outPath (if b = true then rleEncode d else rleDecode d)).read
          args.input = some (if b = true then rleEncode d else rleDecode d) := by
        rw [FS.read_write, if_pos hpo]
      simp only [hr2]
      refine ⟨by trivial, ?_⟩
      show ((fs.write outPath _).removeFile args.input).read args.input = none
      rw [FS.read_removeFile, if_pos rfl]
    · have hr2 : (fs.write outPath (if b = true then rleEncode d else rleDecode d)).read
          args.input = some d := by
        rw [FS.read_write, if_neg hpo, hread]
      simp only [hr2]
      refine ⟨by trivial, ?_⟩
      show ((fs.write outPath _).removeFile args.input).read args.input = none
      rw [FS.read_removeFile, if_pos rfl]
  · intro hkeep hne
    simp only [hkeep, if_true]
    refine ⟨by trivial, ?_⟩
    show (fs.write outPath _).read args.input = some d
    rw [FS.read_write, if_neg (fun h => hne h.symm), hread]

/-- Witness for C2 at concrete runs: the Remove policy deletes the source of
a derived-output operation, the Keep policy preserves it byte-for-byte. -/
theorem C2_witness :
    ((runMain ⟨[("a.slp", [9])], []⟩ [] { input := "a.slp", remove := true }).exitCode = 0 ∧
      (runMain ⟨[("a.slp", [9])], []⟩ [] { input := "a.slp", remove := true }).fs.read "a.slp" =
        none) ∧
    ((runMain ⟨[("a.slp", [9])], []⟩ [] { input := "a.slp", keep := true }).exitCode = 0 ∧
      (runMain ⟨[("a.slp", [9])], []⟩ [] { input := "a.slp", keep := true }).fs.read "a.slp" =
        some [9]) := by
  constructor
  · exact (C2_retention_derived_output ⟨[("a.slp", [9])], []⟩ [] { input := "a.slp", remove := true }
      [9] true "a.slpz" (by decide) (by decide) rfl (by decide) (by rfl) (by decide)).1 (by decide)
  · exact (C2_retention_derived_output ⟨[("a.slp", [9])], []⟩ [] { input := "a.slp", keep := true }
      [9] true "a.slpz" (by decide) (by decide) rfl (by decide) (by rfl) (by decide)).2
      (by decide) (by decide)

/-- C5 (amended): with no explicit output, the destination is derived by
setting the source's extension to the target suffix — replacing the existing
extension when there is one (the raw/compressed swap) and appending the
suffix when there is none — and the derivation fails with the
cannot-derive-name error exactly when the source path has no file-name
component at all, not whenever it merely lacks an extension. -/
theorem C5_derived_name (fs : FS) (stdin : Bytes) (args : Args) (d : Bytes) (b : Bool)
    (hin : args.input ≠ "-") (hdir : fs.isDir args.input = false) (hout : args.output = none)
    (hread : fs.read args.input = some d)
    (hb : resolveDirection (buildOptions args) args.input = Except.ok b) :
    (fileName args.input = none →
       (runMain fs stdin args).exitCode = 1 ∧
         Event.errMsg (ErrMsg.outputFilenameErr args.input) ∈ (runMain fs stdin args).events)
    ∧ (∀ f, fileName args.input = some f →
       (runMain fs stdin args).exitCode = 0 ∧
         (runMain fs stdin args).dest = some (Dest.file (String.mk
           (parentPartChars args.input ++ stemOfName f ++ '.' :: (extFor b).data)))) := by
  have hg : ¬ ((args.input = "-" ∨ args.output = some "-") ∧
      (buildOptions args).recursive = true) := by
    rintro ⟨hor, -⟩
    rcases hor with h | h
    · exact hin h
    · rw [hout] at h
      exact Option.noConfusion h
  have hd2 : ¬ (args.input ≠ "-" ∧ fs.isDir args.input = true) := by
    rintro ⟨-, hdt⟩
    rw [hdir] at hdt
    exact Bool.noConfusion hdt
  have hri : readInput fs stdin args.input = some d := by
    simp [readInput, hin, hread]
  have hpd := processData_ok (buildOptions args) (buildOptions_level_le args) b d
  rw [runMain_single fs stdin args hg hd2,
    runSingle_ok (buildOptions args) fs stdin args d b _ hri hb hpd]
  simp only [writeOutput, hout, if_neg hin]
  constructor
  · intro hfn
    have hs : setExtension args.input (extFor b) = none := by
      simp [setExtension, hfn]
    simp only [hs]
    exact ⟨by trivial, by simp⟩
  · intro f hf
    have hs : setExtension args.input (extFor b) = some (String.mk
        (parentPartChars args.input ++ stemOfName f ++ '.' :: (extFor b).data)) := by
      simp [setExtension, hf]
    simp only [hs]
    by_cases hk : (buildOptions args).keep = true
    · simp only [hk, if_true]
      exact ⟨by trivial, by trivial⟩
    · simp only [if_neg hk]
      rcases hr2 : (fs.write (String.mk
          (parentPartChars args.input ++ stemOfName f ++ '.' :: (extFor b).data))
          (if b = true then rleEncode d else rleDecode d)).read args.input with _ | v <;>
        simp only [hr2]
      · exact ⟨by trivial, by trivial⟩
      · exact ⟨by trivial, by trivial⟩

/-- Witness for C5 at concrete runs: a source with no file-name component
fails, a source with an extension has it replaced. -/
theorem C5_witness :
    ((runMain ⟨[("..", [3])], []⟩ [] { input := "..", compress := true }).exitCode = 1 ∧
      Event.errMsg (ErrMsg.outputFilenameErr "..") ∈
        (runMain ⟨[("..", [3])], []⟩ [] { input := "..", compress := true }).events) ∧
    ((runMain ⟨[("a.slp", [9])], []⟩ [] { input := "a.slp" }).exitCode = 0 ∧
      (runMain ⟨[("a.slp", [9])], []⟩ [] { input := "a.slp" }).dest =
        some (Dest.file (String.mk
          (parentPartChars "a.slp" ++ stemOfName ['a', '.', 's', 'l', 'p'] ++
            '.' :: (extFor true).data)))) := by
  constructor
  · exact (C5_derived_name ⟨[("..", [3])], []⟩ [] { input := "..", compress := true } [3] true
      (by decide) (by decide) rfl (by decide) (by rfl)).1 (by decide)
  · exact (C5_derived_name ⟨[("a.slp", [9])], []⟩ [] { input := "a.slp" } [9] true
      (by decide) (by decide) rfl (by decide) (by rfl)).2 ['a', '.', 's', 'l', 'p'] (by decide)

/-- C6: whenever an explicit output target is given, it is used verbatim as
the destination — the stream marker "-" routes to stdout, any other string is
taken as the literal destination path — and the extension-derivation logic is
never consulted: the resolved destination depends only on the explicit
target, for every source name. -/
theorem C6_explicit_output_verbatim (fs : FS) (stdin : Bytes) (args : Args) (p : String)
    (d out : Bytes) (b : Bool)
    (hout : args.output = some p)
    (hg : ¬ ((args.input = "-" ∨ args.output = some "-") ∧ args.recursive = true))
    (hdir : args.input = "-" ∨ fs.isDir args.input = false)
    (hread : readInput fs stdin args.input = some d)
    (hb : resolveDirection (buildOptions args) args.input = Except.ok b)
    (hp : processData (buildOptions args) b d = Except.ok out) :
    (runMain fs stdin args).exitCode = 0
    ∧ (runMain fs stdin args).dest = some (if p = "-" then Dest.stdout else Dest.file p)
    ∧ (p = "-" → (runMain fs stdin args).fs = fs ∧
        Event.writeStdout out ∈ (runMain fs stdin args).events)
    ∧ (p ≠ "-" → (runMain fs stdin args).fs = fs.write p out ∧
        Event.writeFile p out ∈ (runMain fs stdin args).events) := by
  have hd2 : ¬ (args.input ≠ "-" ∧ fs.isDir args.input = true) := by
    rintro ⟨hne, hdt⟩
    rcases hdir with h | h
    · exact hne h
    · rw [h] at hdt
      exact Bool.noConfusion hdt
  rw [runMain_single fs stdin args hg hd2,
    runSingle_ok (buildOptions args) fs stdin args d b out hread hb hp]
  simp only [writeOutput, hout]
  by_cases hps : p = "-"
  · simp only [if_pos hps]
    exact ⟨by trivial, by simp [hps], fun _ => ⟨by trivial, by simp⟩,
      fun hne => absurd hps hne⟩
  · simp only [if_neg hps]
    exact ⟨by trivial, by simp [hps], fun heq => absurd heq hps,
      fun _ => ⟨by trivial, by simp⟩⟩

/-- Witness for C6 at concrete runs: an explicit file output and an explicit
stream-marker output, both used verbatim. -/
theorem C6_witness :
    ((runMain ⟨[("x.bin", [1])], []⟩ [] { input := "x.bin", output := some "y", compress := true }).exitCode = 0 ∧
      (runMain ⟨[("x.bin", [1])], []⟩ [] { input := "x.bin", output := some "y", compress := true }).dest =
        some (if "y" = "-" then Dest.stdout else Dest.file "y")) ∧
    ((runMain ⟨[("x.bin", [1])], []⟩ [] { input := "x.bin", output := some "-", compress := true }).exitCode = 0 ∧
      (runMain ⟨[("x.bin", [1])], []⟩ [] { input := "x.bin", output := some "-", compress := true }).dest =
        some (if "-" = "-" then Dest.stdout else Dest.file "-")) := by
  constructor
  · have h := C6_explicit_output_verbatim ⟨[("x.bin", [1])], []⟩ []
      { input := "x.bin", output := some "y", compress := true } "y" [1] [1, 1] true
      rfl (by decide) (Or.inr (by decide)) (by decide) (by rfl) (by rfl)
    exact ⟨h.1, h.2.1⟩
  · have h := C6_explicit_output_verbatim ⟨[("x.bin", [1])], []⟩ []
      { input := "x.bin", output := some "-", compress := true } "-" [1] [1, 1] true
      rfl (by rintro ⟨h1 | h1, h2⟩ <;> simp_all) (Or.inr (by decide)) (by decide) (by rfl) (by rfl)
    exact ⟨h.1, h.2.1⟩

theorem writeOutput_stream_no_remove (options : Options) (fs : FS) (args : Args)
    (w : Bool) (out : Bytes) (p : String) (h : args.input = "-") :
    Event.removeFile p ∉ (writeOutput options fs args w out).events := by
  unfold writeOutput
  rcases ho : args.output with _ | q
  · simp only [h, if_pos rfl]
    simp
  · by_cases hq : q = "-"
    · simp only [if_pos hq]
      simp
    · simp only [if_neg hq]
      intro hmem
      rcases List.mem_cons.mp hmem with h2 | h2
      · exact Event.noConfusion h2
      · revert h2
        split <;> simp

theorem runSingle_stream_no_remove (options : Options) (fs : FS) (stdin : Bytes)
    (args : Args) (p : String) (h : args.input = "-") :
    Event.removeFile p ∉ (runSingle options fs stdin args).events := by
  have hri : readInput fs stdin args.input = some stdin := by
    simp [readInput, h]
  unfold runSingle
  simp only [hri]
  rcases hd : resolveDirection options args.input with e | b
  · cases e <;> simp only [hd] <;> simp [readEvent, h]
  · simp only [hd]
    rcases hp : processData options b stdin with m | out <;> simp only [hp]
    · simp [readEvent, h]
    · intro hmem
      rcases List.mem_cons.mp hmem with h2 | h2
      · rw [readEvent, if_pos h] at h2
        exact Event.noConfusion h2
      · exact writeOutput_stream_no_remove options fs args b out p h h2

theorem runMain_stream_no_remove (fs : FS) (stdin : Bytes) (args : Args) (p : String)
    (h : args.input = "-") :
    Event.removeFile p ∉ (runMain fs stdin args).events := by
  unfold runMain
  by_cases hg : (args.input = "-" ∨ args.output = some "-") ∧ (buildOptions args).recursive = true
  · rw [if_pos hg]
    simp
  · rw [if_neg hg]
    have hd : ¬ (args.input ≠ "-" ∧ fs.isDir args.input = true) := by
      rintro ⟨hne, -⟩
      exact hne h
    rw [if_neg hd]
    exact runSingle_stream_no_remove (buildOptions args) fs stdin args p h

/-- C10: when the input is the stream marker "-" and no explicit output is
given, the transformed result is written to standard output (exit code 0,
stdout destination, the stdout write in the trace, file system untouched —
not a name-derivation failure), and a source removal is never attempted for
a stream input under any flag combination. -/
theorem C10_stream_default_stdout (fs : FS) (stdin : Bytes) (args : Args) (b : Bool)
    (out : Bytes)
    (hin : args.input = "-") (hrec : args.recursive = false) (hout : args.output = none)
    (hb : resolveDirection (buildOptions args) args.input = Except.ok b)
    (hp : processData (buildOptions args) b stdin = Except.ok out) :
    (runMain fs stdin args).exitCode = 0
    ∧ (runMain fs stdin args).dest = some Dest.stdout
    ∧ Event.writeStdout out ∈ (runMain fs stdin args).events
    ∧ (runMain fs stdin args).fs = fs
    ∧ (∀ (args2 : Args) (p : String), args2.input = "-" →
         Event.removeFile p ∉ (runMain fs stdin args2).events) := by
  have hg : ¬ ((args.input = "-" ∨ args.output = some "-") ∧
      (buildOptions args).recursive = true) := by
    rintro ⟨-, hr2⟩
    rw [buildOptions_recursive, hrec] at hr2
    exact Bool.noConfusion hr2
  have hd2 : ¬ (args.input ≠ "-" ∧ fs.isDir args.input = true) := by
    rintro ⟨hne, -⟩
    exact hne hin
  have hri : readInput fs stdin args.input = some stdin := by
    simp [readInput, hin]
  rw [runMain_single fs stdin args hg hd2,
    runSingle_ok (buildOptions args) fs stdin args stdin b out hri hb hp]
  simp only [writeOutput, hout, hin, if_pos rfl]
  exact ⟨by trivial, by trivial, by simp, by trivial,
    fun args2 p h2 => runMain_stream_no_remove fs stdin args2 p h2⟩

/-- Witness for C10 at a concrete stream-to-stream compression run. -/
theorem C10_witness :
    (runMain ⟨[], []⟩ [3, 3] { input := "-", compress := true }).exitCode = 0 ∧
    (runMain ⟨[], []⟩ [3, 3] { input := "-", compress := true }).dest = some Dest.stdout ∧
    Event.writeStdout [2, 3] ∈ (runMain ⟨[], []⟩ [3, 3] { input := "-", compress := true }).events ∧
    (runMain ⟨[], []⟩ [3, 3] { input := "-", compress := true }).fs = ⟨[], []⟩ ∧
    (∀ (args2 : Args) (p : String), args2.input = "-" →
       Event.removeFile p ∉ (runMain ⟨[], []⟩ [3, 3] args2).events) :=
  C10_stream_default_stdout ⟨[], []⟩ [3, 3] { input := "-", compress := true } true [2, 3]
    rfl rfl rfl (by rfl) (by rfl)

/-- C1 (amended): for a single non-directory input, direction is inferred
from the source's extension in the Path-extension sense: an explicit
compress/decompress flag always overrides the inference; with no flag, a
source whose extension is "slp" (its name ends in ".slp" with a non-empty
stem) resolves to compress and one whose extension is "slpz" resolves to
decompress; any other name — including a bare dotfile such as ".slp" — is a
fatal ambiguous-direction error; and a stream (stdin) source with no
explicit flag fails immediately with the message that an explicit flag is
required. -/
theorem C1_direction_inference (fs : FS) (stdin : Bytes) (args : Args) (d : Bytes) :
    (args.compress = true → resolveDirection (buildOptions args) args.input = Except.ok true)
    ∧ (args.compress = false → args.decompress = true →
        resolveDirection (buildOptions args) args.input = Except.ok false)
    ∧ (args.compress = false → args.decompress = false → args.input ≠ "-" →
        extension args.input = some "slp" →
        resolveDirection (buildOptions args) args.input = Except.ok true)
    ∧ (args.compress = false → args.decompress = false → args.input ≠ "-" →
        extension args.input = some "slpz" →
        resolveDirection (buildOptions args) args.input = Except.ok false)
    ∧ (args.compress = false → args.decompress = false → args.input ≠ "-" →
        extension args.input ≠ some "slp" → extension args.input ≠ some "slpz" →
        args.recursive = false → fs.isDir args.input = false →
        readInput fs stdin args.input = some d →
        (runMain fs stdin args).exitCode = 1 ∧
          Event.errMsg (ErrMsg.ambiguousDirection args.input) ∈ (runMain fs stdin args).events)
    ∧ (args.input = "-" → args.compress = false → args.decompress = false →
        args.recursive = false →
        (runMain fs stdin args).exitCode = 1 ∧
          Event.errMsg ErrMsg.stdinDirectionRequired ∈ (runMain fs stdin args).events) := by
  refine ⟨?_, ?_, ?_, ?_, ?_, ?_⟩
  · intro h
    simp [resolveDirection, buildOptions, h]
  · intro h1 h2
    simp [resolveDirection, buildOptions, h1, h2]
  · intro h1 h2 h3 h4
    have hc := buildOptions_compress_none args h1 h2
    simp only [resolveDirection, hc]
    rw [if_neg h3, if_pos h4]
  · intro h1 h2 h3 h4
    have hc := buildOptions_compress_none args h1 h2
    simp only [resolveDirection, hc]
    have hne : extension args.input ≠ some "slp" := by
      rw [h4]
      decide
    rw [if_neg h3, if_neg hne, if_pos h4]
  · intro h1 h2 h3 h4 h5 hrec hdir hread
    have hc := buildOptions_compress_none args h1 h2
    have hres : resolveDirection (buildOptions args) args.input =
        Except.error DirError.ambiguousDirection := by
      simp only [resolveDirection, hc]
      rw [if_neg h3, if_neg h4, if_neg h5]
    have hg : ¬ ((args.input = "-" ∨ args.output = some "-") ∧
        (buildOptions args).recursive = true) := by
      rintro ⟨-, hr2⟩
      rw [buildOptions_recursive, hrec] at hr2
      exact Bool.noConfusion hr2
    have hd2 : ¬ (args.input ≠ "-" ∧ fs.isDir args.input = true) := by
      rintro ⟨-, hdt⟩
      rw [hdir] at hdt
      exact Bool.noConfusion hdt
    rw [runMain_single fs stdin args hg hd2]
    unfold runSingle
    simp only [hread, hres]
    exact ⟨by trivial, by simp⟩
  · intro h1 h2 h3 hrec
    have hc := buildOptions_compress_none args h2 h3
    have hres : resolveDirection (buildOptions args) args.input =
        Except.error DirError.stdinDirectionRequired := by
      simp only [resolveDirection, hc]
      rw [if_pos h1]
    have hg : ¬ ((args.input = "-" ∨ args.output = some "-") ∧
        (buildOptions args).recursive = true) := by
      rintro ⟨-, hr2⟩
      rw [buildOptions_recursive, hrec] at hr2
      exact Bool.noConfusion hr2
    have hd2 : ¬ (args.input ≠ "-" ∧ fs.isDir args.input = true) := by
      rintro ⟨hne, -⟩
      exact hne h1
    have hri : readInput fs stdin args.input = some stdin := by
      simp [readInput, h1]
    rw [runMain_single fs stdin args hg hd2]
    unfold runSingle
    simp only [hri, hres]
    exact ⟨by trivial, by simp⟩

/-- Witness for C1 at concrete inputs covering each case of the inference. -/
theorem C1_witness :
    resolveDirection (buildOptions { input := "x", compress := true }) "x" = Except.ok true
    ∧ resolveDirection (buildOptions { input := "x", decompress := true }) "x" = Except.ok false
    ∧ resolveDirection (buildOptions { input := "b.slp" }) "b.slp" = Except.ok true
    ∧ resolveDirection (buildOptions { input := "b.slpz" }) "b.slpz" = Except.ok false
    ∧ ((runMain ⟨[("b.bin", [1])], []⟩ [] { input := "b.bin" }).exitCode = 1 ∧
        Event.errMsg (ErrMsg.ambiguousDirection "b.bin") ∈
          (runMain ⟨[("b.bin", [1])], []⟩ [] { input := "b.bin" }).events)
    ∧ ((runMain ⟨[], []⟩ [] { input := "-" }).exitCode = 1 ∧
        Event.errMsg ErrMsg.stdinDirectionRequired ∈
          (runMain ⟨[], []⟩ [] { input := "-" }).events) := by
  refine ⟨?_, ?_, ?_, ?_, ?_, ?_⟩
  · exact (C1_direction_inference ⟨[], []⟩ [] { input := "x", compress := true } []).1 rfl
  · exact (C1_direction_inference ⟨[], []⟩ [] { input := "x", decompress := true } []).2.1 rfl rfl
  · exact (C1_direction_inference ⟨[], []⟩ [] { input := "b.slp" } []).2.2.1 rfl rfl
      (by decide) (by decide)
  · exact (C1_direction_inference ⟨[], []⟩ [] { input := "b.slpz" } []).2.2.2.1 rfl rfl
      (by decide) (by decide)
  · exact (C1_direction_inference ⟨[("b.bin", [1])], []⟩ [] { input := "b.bin" } [1]).2.2.2.2.1
      rfl rfl (by decide) (by decide) (by decide) rfl (by decide) (by decide)
  · exact (C1_direction_inference ⟨[], []⟩ [] { input := "-" } []).2.2.2.2.2 rfl rfl rfl rfl

/-- C3 (amended): structural failures in single-item mode — a bad input path
that cannot be read, an ambiguous direction, or a codec-initialization
failure — terminate the run with exit code 1 and the corresponding error
message; a structural failure reported from directory-mode processing also
produces a human-readable error message, but the process then returns
normally with exit code 0 rather than a non-zero status. -/
theorem C3_structural_failures :
    (∀ (options : Options) (fs : FS) (stdin : Bytes) (args : Args),
        args.input ≠ "-" → fs.read args.input = none →
        (runSingle options fs stdin args).exitCode = 1 ∧
          Event.errMsg (ErrMsg.fileReadErr args.input) ∈
            (runSingle options fs stdin args).events)
    ∧ (∀ (options : Options) (fs : FS) (stdin : Bytes) (args : Args) (d : Bytes),
        readInput fs stdin args.input = some d →
        resolveDirection options args.input = Except.error DirError.ambiguousDirection →
        (runSingle options fs stdin args).exitCode = 1 ∧
          Event.errMsg (ErrMsg.ambiguousDirection args.input) ∈
            (runSingle options fs stdin args).events)
    ∧ (∀ (options : Options) (fs : FS) (stdin : Bytes) (args : Args) (d : Bytes),
        readInput fs stdin args.input = some d →
        resolveDirection options args.input = Except.ok true →
        Compressor.new options.level = none →
        (runSingle options fs stdin args).exitCode = 1 ∧
          Event.errMsg ErrMsg.compressorInitFailed ∈ (runSingle options fs stdin args).events)
    ∧ (∀ (fs : FS) (stdin : Bytes) (args : Args) (e : TargetPathError),
        args.input ≠ "-" → fs.isDir args.input = true → args.output = none →
        target_path (buildOptions args) fs args.input = Except.error e →
        (runMain fs stdin args).exitCode = 0 ∧
          Event.errMsg (ErrMsg.targetPathErr e) ∈ (runMain fs stdin args).events) := by
  refine ⟨?_, ?_, ?_, ?_⟩
  · intro options fs stdin args hin hread
    have hri : readInput fs stdin args.input = none := by
      simp [readInput, hin, hread]
    unfold runSingle
    simp only [hri]
    exact ⟨by trivial, by simp⟩
  · intro options fs stdin args d hr hres
    unfold runSingle
    simp only [hr, hres]
    exact ⟨by trivial, by simp⟩
  · intro options fs stdin args d hr hres hcn
    have hp : processData options true d = Except.error ErrMsg.compressorInitFailed := by
      simp [processData, hcn]
    unfold runSingle
    simp only [hr, hres, hp]
    exact ⟨by trivial, by simp⟩
  · intro fs stdin args e hin hdirt hout htp
    have hg : ¬ ((args.input = "-" ∨ args.output = some "-") ∧
        (buildOptions args).recursive = true) := by
      rintro ⟨hor, -⟩
      rcases hor with h | h
      · exact hin h
      · rw [hout] at h
        exact Option.noConfusion h
    have hos : args.output.isSome = false := by
      rw [hout]
      rfl
    unfold runMain
    rw [if_neg hg, if_pos ⟨hin, hdirt⟩, if_neg (by simp [hos])]
    simp only [htp]
    exact ⟨by trivial, by simp⟩

/-- Witness for C3 at concrete runs: a single-item unreadable input path
exits 1, single-item ambiguity exits 1, a single-item codec-initialization
failure exits 1, and a directory-mode structural failure exits 0 while still
reporting the error. -/
theorem C3_witness :
    ((runSingle ⟨9, none, true, true, false⟩ ⟨[], []⟩ [] { input := "missing.slp" }).exitCode = 1 ∧
      Event.errMsg (ErrMsg.fileReadErr "missing.slp") ∈
        (runSingle ⟨9, none, true, true, false⟩ ⟨[], []⟩ [] { input := "missing.slp" }).events) ∧
    ((runSingle ⟨9, none, true, true, false⟩ ⟨[("x.bin", [1])], []⟩ [] { input := "x.bin" }).exitCode = 1 ∧
      Event.errMsg (ErrMsg.ambiguousDirection "x.bin") ∈
        (runSingle ⟨9, none, true, true, false⟩ ⟨[("x.bin", [1])], []⟩ [] { input := "x.bin" }).events) ∧
    ((runSingle ⟨23, some true, true, true, false⟩ ⟨[("x.bin", [1])], []⟩ [] { input := "x.bin" }).exitCode = 1 ∧
      Event.errMsg ErrMsg.compressorInitFailed ∈
        (runSingle ⟨23, some true, true, true, false⟩ ⟨[("x.bin", [1])], []⟩ [] { input := "x.bin" }).events) ∧
    ((runMain ⟨[], ["d"]⟩ [] { input := "d" }).exitCode = 0 ∧
      Event.errMsg (ErrMsg.targetPathErr TargetPathError.PathInvalid) ∈
        (runMain ⟨[], ["d"]⟩ [] { input := "d" }).events) := by
  refine ⟨?_, ?_, ?_, ?_⟩
  · exact C3_structural_failures.1 ⟨9, none, true, true, false⟩ ⟨[], []⟩ []
      { input := "missing.slp" } (by decide) (by decide)
  · exact C3_structural_failures.2.1 ⟨9, none, true, true, false⟩ ⟨[("x.bin", [1])], []⟩ []
      { input := "x.bin" } [1] (by decide) (by rfl)
  · exact C3_structural_failures.2.2.1 ⟨23, some true, true, true, false⟩ ⟨[("x.bin", [1])], []⟩ []
      { input := "x.bin" } [1] (by decide) (by rfl) (by decide)
  · exact C3_structural_failures.2.2.2 ⟨[], ["d"]⟩ [] { input := "d" } TargetPathError.PathInvalid
      (by decide) (by decide) rfl (by rfl)

theorem writeOutput_stdout_no_log (options : Options) (fs : FS) (args : Args)
    (w : Bool) (out : Bytes)
    (h : (writeOutput options fs args w out).dest = some Dest.stdout) :
    ∀ m, Event.logMsg m ∉ (writeOutput options fs args w out).events := by
  rcases ho : args.output with _ | q
  · by_cases hi : args.input = "-"
    · simp only [writeOutput, ho, if_pos hi]
      simp
    · rcases hs : setExtension args.input (extFor w) with _ | op
      · simp [writeOutput, ho, hi, hs] at h
      · by_cases hk : options.keep = true
        · simp [writeOutput, ho, hi, hs, hk] at h
        · rcases hr : (fs.write op out).read args.input with _ | v
          · simp [writeOutput, ho, hi, hs, hk, hr] at h
          · simp [writeOutput, ho, hi, hs, hk, hr] at h
  · by_cases hq : q = "-"
    · simp only [writeOutput, ho, if_pos hq]
      simp
    · simp [writeOutput, ho, hq] at h

theorem runSingle_stdout_no_log (options : Options) (fs : FS) (stdin : Bytes) (args : Args)
    (h : (runSingle options fs stdin args).dest = some Dest.stdout) :
    ∀ m, Event.logMsg m ∉ (runSingle options fs stdin args).events := by
  rcases hri : readInput fs stdin args.input with _ | data
  · simp [runSingle, hri] at h
  · rcases hd : resolveDirection options args.input with e | b
    · cases e <;> simp [runSingle, hri, hd] at h
    · rcases hp : processData options b data with m2 | out
      · simp [runSingle, hri, hd, hp] at h
      · simp only [runSingle, hri, hd, hp] at h ⊢
        intro m hmem
        rcases List.mem_cons.mp hmem with h2 | h2
        · revert h2
          unfold readEvent
          split <;> simp
        · exact writeOutput_stdout_no_log options fs args b out h m h2

/-- C7: for every run whose resolved destination is the standard-output
stream, no success log line is emitted — the trace contains no log message at
all — regardless of the logging flag. -/
theorem C7_stdout_suppresses_logging (fs : FS) (stdin : Bytes) (args : Args) (m : LogMsg)
    (h : (runMain fs stdin args).dest = some Dest.stdout) :
    Event.logMsg m ∉ (runMain fs stdin args).events := by
  by_cases hg : (args.input = "-" ∨ args.output = some "-") ∧ (buildOptions args).recursive = true
  · simp [runMain, hg] at h
  · by_cases hd : args.input ≠ "-" ∧ fs.isDir args.input = true
    · by_cases ho : args.output.isSome = true
      · simp only [runMain, if_neg hg, if_pos hd, if_pos ho] at h
        simp at h
      · rcases ht : target_path (buildOptions args) fs args.input with e | u
        · simp only [runMain, if_neg hg, if_pos hd, if_neg ho, ht] at h
          simp at h
        · simp only [runMain, if_neg hg, if_pos hd, if_neg ho, ht] at h
          simp at h
    · simp only [runMain, if_neg hg, if_neg hd] at h ⊢
      exact runSingle_stdout_no_log (buildOptions args) fs stdin args h m

/-- Witness for C7 at a concrete stream-to-stdout run with logging enabled. -/
theorem C7_witness :
    Event.logMsg (LogMsg.processedAuto true "-") ∉
      (runMain ⟨[], []⟩ [1] { input := "-", compress := true }).events :=
  C7_stdout_suppresses_logging ⟨[], []⟩ [1] { input := "-", compress := true }
    (LogMsg.processedAuto true "-") (by rfl)
